import Mathlib

/-!
# Verification of the `latte` background process supervisor

A shallow embedding of `src/process_manager.rs` (the `ProcessManager`
component and its value types), together with proofs of the spec claims
about it.

Modelling conventions:
* Rust `Vec` buffers become Lean `List`s; `HashMap<String, ProcessHandle>`
  becomes an association list with HashMap insert/lookup semantics
  (`regLookup`, `regInsert`, `updateHandle`).
* `SystemTime` timestamps carry no program-relevant information for any
  claim and are not modelled (the `timestamp` field of `LogLine` is
  omitted); all other fields are kept.
* Fallible operations return `Except String _` with the exact error
  strings the source formats.
* The OS boundary (`Command::spawn`, `Child::try_wait`, `Child::kill`)
  is modelled by explicit outcome parameters: a spawn attempt is an
  `Except String ChildProc` input, a poll observes a `PollResult`, and a
  `ChildProc` records whether `kill` succeeds (`killErr`).
-/

namespace Latte

/-- `ProcessStatus` from `process_manager.rs`. -/
inductive ProcessStatus where
  | Starting
  | Running
  | Stopped
  | Failed
  | Killed
deriving DecidableEq, Repr

/-- `LogLevel` from `process_manager.rs`. -/
inductive LogLevel where
  | Info
  | Warning
  | Error
  | Debug
  | Trace
deriving DecidableEq, Repr

/-- `LogSource` from `process_manager.rs`. -/
inductive LogSource where
  | Stdout
  | Stderr
  | System
deriving DecidableEq, Repr

/-- `ProcessInfo` from `process_manager.rs` (the `start_time : SystemTime`
field is wall-clock data and is not modelled). -/
structure ProcessInfo where
  id : String
  command : String
  args : List String
  working_dir : String
  status : ProcessStatus
  pid : Option Nat
  output_lines : List String
  error_lines : List String
deriving DecidableEq, Repr

/-- `LogLine` from `process_manager.rs` (the `timestamp : SystemTime`
field is wall-clock data and is not modelled). -/
structure LogLine where
  level : LogLevel
  content : String
  source : LogSource
deriving DecidableEq, Repr

/-- The OS child handle (`std::process::Child`) as seen by this code:
its pid, and whether a `kill` call on it succeeds (`killErr = none`) or
fails with an OS error message. -/
structure ChildProc where
  pid : Nat
  killErr : Option String
deriving DecidableEq, Repr

/-- `ProcessHandle` from `process_manager.rs`. -/
structure ProcessHandle where
  info : ProcessInfo
  child : Option ChildProc
  log_lines : List LogLine
deriving DecidableEq, Repr

/-- The registry `HashMap<String, ProcessHandle>`, as an association
list with unique keys maintained by `regInsert`. -/
def Registry : Type := List (String × ProcessHandle)

instance : DecidableEq Registry := by
  unfold Registry
  infer_instance

instance : Repr Registry := by
  unfold Registry
  infer_instance

deriving instance DecidableEq for Except

/-- `log_buffer_size` set in `ProcessManager::new` ("Keep last 1000 log
lines per process"). -/
def log_buffer_size : Nat := 1000

/-! ## String helpers mirroring the Rust `str` operations used -/

/-- `needle` occurs at the head of `hay` (`str::starts_with`, used to
build the substring check). -/
def headMatch : List Char → List Char → Bool
  | [], _ => true
  | _ :: _, [] => false
  | a :: as, b :: bs => a == b && headMatch as bs

/-- `hay.contains(needle)`: `needle` occurs as a contiguous substring of
`hay` (Rust `str::contains`). -/
def hasSub (needle : List Char) : List Char → Bool
  | [] => needle.isEmpty
  | c :: t => headMatch needle (c :: t) || hasSub needle t

/-- `to_lowercase` as used on the log lines (per-character lowercasing). -/
def lowerChars (s : String) : List Char := s.data.map Char.toLower

/-- `str::trim_end`: drop trailing whitespace. -/
def trimEndStr (s : String) : String :=
  String.mk ((s.data.reverse.dropWhile Char.isWhitespace).reverse)

/-! ## Log-level detection (`ProcessManager::detect_log_level`) -/

/-- `ProcessManager::detect_log_level`: case-insensitive keyword cascade,
first match wins. -/
def detect_log_level (line : String) : LogLevel :=
  let line_lower := lowerChars line
  if hasSub "error".data line_lower || hasSub "exception".data line_lower then
    LogLevel.Error
  else if hasSub "warning".data line_lower || hasSub "warn".data line_lower then
    LogLevel.Warning
  else if hasSub "debug".data line_lower then
    LogLevel.Debug
  else if hasSub "trace".data line_lower then
    LogLevel.Trace
  else
    LogLevel.Info

/-! ## Registry primitives (HashMap semantics) -/

/-- `HashMap::get` on the registry. -/
def regLookup : Registry → String → Option ProcessHandle
  | [], _ => none
  | (k, h) :: t, id => if k == id then some h else regLookup t id

/-- `HashMap::get_mut` followed by an in-place update (no-op when the
key is absent, matching every `if let Some(handle) = get_mut(..)` site). -/
def updateHandle : Registry → String → (ProcessHandle → ProcessHandle) → Registry
  | [], _, _ => []
  | (k, h) :: t, id, f => if k == id then (k, f h) :: t else (k, h) :: updateHandle t id f

/-- `HashMap::insert`: replaces the value when the key is present,
otherwise adds the entry. -/
def regInsert : Registry → String → ProcessHandle → Registry
  | [], id, h => [(id, h)]
  | (k, h0) :: t, id, h => if k == id then (id, h) :: t else (k, h0) :: regInsert t id h

/-! ## Stream reader append step (`ProcessManager::monitor_stream`) -/

/-- One buffer-trim step: `if buf.len() > cap { buf.remove(0); }`. -/
def trimBuf (cap : Nat) (l : List α) : List α :=
  if l.length > cap then l.tail else l

/-- The classified record `monitor_stream` builds for a raw line:
level from the untrimmed line, content trimmed. -/
def mkLogLine (source : LogSource) (raw : String) : LogLine :=
  { level := detect_log_level raw, content := trimEndStr raw, source := source }

/-- The body of `monitor_stream`'s per-line locked section: push the
classified `LogLine`, push the raw trimmed text to the buffer chosen by
the source, then trim all three buffers to the cap. -/
def appendLine (cap : Nat) (source : LogSource) (raw : String) (h : ProcessHandle) :
    ProcessHandle :=
  let content := trimEndStr raw
  let h1 := { h with log_lines := h.log_lines ++ [mkLogLine source raw] }
  let h2 :=
    match source with
    | LogSource.Stdout =>
        { h1 with info := { h1.info with output_lines := h1.info.output_lines ++ [content] } }
    | LogSource.Stderr =>
        { h1 with info := { h1.info with error_lines := h1.info.error_lines ++ [content] } }
    | LogSource.System =>
        { h1 with info := { h1.info with output_lines := h1.info.output_lines ++ [content] } }
  { h2 with
    log_lines := trimBuf cap h2.log_lines
    info := { h2.info with
                output_lines := trimBuf cap h2.info.output_lines
                error_lines := trimBuf cap h2.info.error_lines } }

/-- `monitor_stream`'s read loop over a whole stream, as the fold of the
per-line locked section over the sequence of lines the pipe delivers. -/
def monitor_stream (cap : Nat) (st : Registry) (id : String) (source : LogSource)
    (lines : List String) : Registry :=
  lines.foldl (fun st line => updateHandle st id (appendLine cap source line)) st

/-! ## Queries -/

/-- `ProcessManager::get_process_info`. -/
def get_process_info (st : Registry) (id : String) : Option ProcessInfo :=
  (regLookup st id).map (fun h => h.info)

/-- `ProcessManager::get_process_logs`. -/
def get_process_logs (st : Registry) (id : String) : List LogLine :=
  match regLookup st id with
  | some h => h.log_lines
  | none => []

/-- `ProcessManager::get_recent_logs`. -/
def get_recent_logs (st : Registry) (id : String) (count : Nat) : List LogLine :=
  match regLookup st id with
  | some h =>
      let start := if h.log_lines.length > count then h.log_lines.length - count else 0
      h.log_lines.drop start
  | none => []

/-- `ProcessManager::list_processes`. -/
def list_processes (st : Registry) : List ProcessInfo :=
  st.map (fun e => e.2.info)

/-- `ProcessManager::list_running_processes`. -/
def list_running_processes (st : Registry) : List ProcessInfo :=
  (st.filter (fun e =>
      e.2.info.status = ProcessStatus.Starting ∨ e.2.info.status = ProcessStatus.Running)).map
    (fun e => e.2.info)

/-- `ProcessManager::cleanup_finished_processes` (retain non-terminal). -/
def cleanup_finished_processes (st : Registry) : Registry :=
  st.filter (fun e =>
    ¬(e.2.info.status = ProcessStatus.Stopped ∨ e.2.info.status = ProcessStatus.Failed ∨
      e.2.info.status = ProcessStatus.Killed))

/-! ## Stop operations -/

/-- `ProcessManager::stop_process`: kill the live child, set `Killed`;
distinct error strings for an absent record, a record with no child
handle, and a failed kill. Returns the result and the updated registry. -/
def stop_process (st : Registry) (id : String) : Except String Unit × Registry :=
  match regLookup st id with
  | none => (Except.error "Process not found", st)
  | some h =>
      match h.child with
      | none => (Except.error "Process is not running", st)
      | some c =>
          match c.killErr with
          | some e => (Except.error ("Failed to kill process: " ++ e), st)
          | none =>
              (Except.ok (),
               updateHandle st id (fun h =>
                 { h with
                   info := { h.info with status := ProcessStatus.Killed }
                   child := none }))

/-- The loop body of `stop_all_processes`: attempt `stop_process` for
each id in turn, collecting the ids whose stop returned `Ok`. -/
def stopAllGo (acc : List String × Registry) : List String → List String × Registry
  | [] => acc
  | id :: rest =>
      let sr := stop_process acc.2 id
      match sr.1 with
      | Except.ok _ => stopAllGo (acc.1 ++ [id], sr.2) rest
      | Except.error _ => stopAllGo (acc.1, sr.2) rest

/-- `ProcessManager::stop_all_processes`: snapshot the key set, attempt
`stop_process` on each id, collect the ids whose stop returned `Ok`. -/
def stop_all_processes (st : Registry) : Except String (List String) × Registry :=
  let process_ids := st.map (fun e => e.1)
  let r := stopAllGo (([] : List String), st) process_ids
  (Except.ok r.1, r.2)

/-- Whether `stop_process` succeeds for a record in the given lookup
state: it must be present, have a live child, and the kill must succeed. -/
def stopOk : Option ProcessHandle → Bool
  | some h =>
      match h.child with
      | some c => c.killErr.isNone
      | none => false
  | none => false

/-- The record transformation a successful `stop_process` applies. -/
def killHandle (h : ProcessHandle) : ProcessHandle :=
  { h with info := { h.info with status := ProcessStatus.Killed }, child := none }

/-! ## Liveness monitor poll (`ProcessManager::start_process_monitoring`) -/

/-- The outcome of one `child.try_wait()` call, an input from the OS. -/
inductive PollResult where
  | stillRunning
  | exited (success : Bool)
  | pollErr
deriving DecidableEq, Repr

/-- The body of one iteration of the monitor loop's locked section,
given the handle it found: returns the updated handle and whether the
loop continues. -/
def poll_step (h : ProcessHandle) (r : PollResult) : ProcessHandle × Bool :=
  match h.child with
  | some _ =>
      match r with
      | PollResult.exited success =>
          ({ h with
             info := { h.info with
                       status := if success then ProcessStatus.Stopped else ProcessStatus.Failed }
             child := none }, false)
      | PollResult.stillRunning =>
          (if h.info.status = ProcessStatus.Starting then
             { h with info := { h.info with status := ProcessStatus.Running } }
           else h, true)
      | PollResult.pollErr =>
          ({ h with info := { h.info with status := ProcessStatus.Failed }, child := none }, false)
  | none => (h, false)

/-- One iteration of `start_process_monitoring`'s loop at the registry
level: absent record stops monitoring, otherwise `poll_step`. -/
def monitor_poll (st : Registry) (id : String) (r : PollResult) : Registry × Bool :=
  match regLookup st id with
  | none => (st, false)
  | some h =>
      let pr := poll_step h r
      (updateHandle st id (fun _ => pr.1), pr.2)

/-! ## Spawn (`start_simple_command` / `start_bench_process`)

Both spawn functions perform, in this order: (1) the OS spawn (failure
returns the error with no registry mutation); (2) `start_output_monitoring`,
whose first locked section tries to store the child via `get_mut` —
a no-op when the id is not yet in the map, in which case the child
handle is dropped; (3) insertion of the `ProcessHandle` with
`child: None`. The reader threads and the monitor thread run later and
are modelled as separate events. -/

/-- `ProcessManager::start_simple_command`. `spawnResult` is the outcome
of `Command::new(command)...spawn()`. -/
def start_simple_command (st : Registry) (spawnResult : Except String ChildProc)
    (id : String) (working_dir : String) (command : String) (args : List String) :
    Except String String × Registry :=
  match spawnResult with
  | Except.error e => (Except.error ("Failed to start command: " ++ e), st)
  | Except.ok child =>
      let process_info : ProcessInfo :=
        { id := id, command := command, args := args, working_dir := working_dir
          status := ProcessStatus.Starting, pid := some child.pid
          output_lines := [], error_lines := [] }
      let st1 := updateHandle st id (fun h => { h with child := some child })
      let process_handle : ProcessHandle := { info := process_info, child := none, log_lines := [] }
      let st2 := regInsert st1 id process_handle
      (Except.ok id, st2)

/-- `ProcessManager::start_bench_process`. -/
def start_bench_process (st : Registry) (spawnResult : Except String ChildProc)
    (id : String) (bench_path : String) (command : String) (args : List String) :
    Except String String × Registry :=
  let full_command := "bench " ++ command
  let cmd_args := command :: args
  match spawnResult with
  | Except.error e => (Except.error ("Failed to start bench process: " ++ e), st)
  | Except.ok child =>
      let process_info : ProcessInfo :=
        { id := id, command := full_command, args := cmd_args, working_dir := bench_path
          status := ProcessStatus.Starting, pid := some child.pid
          output_lines := [], error_lines := [] }
      let st1 := updateHandle st id (fun h => { h with child := some child })
      let process_handle : ProcessHandle := { info := process_info, child := none, log_lines := [] }
      let st2 := regInsert st1 id process_handle
      (Except.ok id, st2)

/-! ## Error-location extraction (`parse_error_line`, `extract_clickable_errors`) -/

/-- `ErrorType` from `process_manager.rs`. -/
inductive ErrorType where
  | PythonTraceback
  | JavaScriptError
  | BuildError
  | TestFailure
  | Generic
deriving DecidableEq, Repr

/-- `ClickableError` from `process_manager.rs`. -/
structure ClickableError where
  file_path : String
  line_number : Nat
  message : String
  error_type : ErrorType
deriving DecidableEq, Repr

/-- Consume a literal at the head of the input, returning the rest. -/
def dropLit : List Char → List Char → Option (List Char)
  | [], l => some l
  | _ :: _, [] => none
  | a :: as, b :: bs => if a == b then dropLit as bs else none

/-- Match the regex `File "([^\x22]+)", line (\d+)` at the head of the
input; returns the two capture groups (path, digit run). The two
quantified classes are determinate here: `[^\x22]+` runs to the first
quote, `\d+` to the first non-digit. -/
def pyMatchHead (l : List Char) : Option (String × List Char) :=
  match dropLit "File \"".data l with
  | none => none
  | some r1 =>
      let sp := r1.span (fun c => !(c == '"'))
      if sp.1.isEmpty then none
      else
        match dropLit "\", line ".data sp.2 with
        | none => none
        | some r2 =>
            let dg := r2.span Char.isDigit
            if dg.1.isEmpty then none else some (String.mk sp.1, dg.1)

/-- Leftmost search with the Python-traceback pattern
(`Regex::captures` semantics: earliest start position wins). -/
def pyFind : List Char → Option (String × List Char)
  | [] => none
  | c :: t =>
      match pyMatchHead (c :: t) with
      | some r => some r
      | none => pyFind t

/-- Match the regex `at ([^(]+) \(([^:]+):(\d+):(\d+)\)` at the head of
the input; returns capture groups 2 and 3 (path, line digits), the only
ones the code uses. `[^(]+` must end exactly one space before the
opening parenthesis (the backtracking-normal form of the pattern). -/
def jsMatchHead (l : List Char) : Option (String × List Char) :=
  match dropLit "at ".data l with
  | none => none
  | some r1 =>
      let sp := r1.span (fun c => !(c == '('))
      match sp.1.reverse with
      | [] => none
      | lastc :: revRest =>
          if lastc == ' ' ∧ ¬revRest.isEmpty then
            match sp.2 with
            | '(' :: r2 =>
                let p2 := r2.span (fun c => !(c == ':'))
                if p2.1.isEmpty then none
                else
                  match p2.2 with
                  | ':' :: r3 =>
                      let d1 := r3.span Char.isDigit
                      if d1.1.isEmpty then none
                      else
                        match d1.2 with
                        | ':' :: r4 =>
                            let d2 := r4.span Char.isDigit
                            if d2.1.isEmpty then none
                            else
                              match d2.2 with
                              | ')' :: _ => some (String.mk p2.1, d1.1)
                              | _ => none
                        | _ => none
                  | _ => none
            | _ => none
          else none

/-- Leftmost search with the JavaScript stack-frame pattern. -/
def jsFind : List Char → Option (String × List Char)
  | [] => none
  | c :: t =>
      match jsMatchHead (c :: t) with
      | some r => some r
      | none => jsFind t

/-- Decimal value of a digit run. -/
def digitsToNat (ds : List Char) : Nat :=
  ds.foldl (fun a c => a * 10 + (c.toNat - '0'.toNat)) 0

/-- `str::parse::<u32>` on a digit run: fails on overflow. -/
def parseU32 (ds : List Char) : Option Nat :=
  let n := digitsToNat ds
  if n < 2 ^ 32 then some n else none

/-- `ProcessManager::parse_error_line`: Python-traceback pattern first,
JavaScript stack-frame pattern second. A `?` on the `u32` parse aborts
the whole function, so an overflowing Python match does not fall
through to the JavaScript pattern. -/
def parse_error_line (line : String) : Option ClickableError :=
  match pyFind line.data with
  | some r =>
      match parseU32 r.2 with
      | some n =>
          some { file_path := r.1, line_number := n, message := line
                 error_type := ErrorType.PythonTraceback }
      | none => none
  | none =>
      match jsFind line.data with
      | some r =>
          match parseU32 r.2 with
          | some n =>
              some { file_path := r.1, line_number := n, message := line
                     error_type := ErrorType.JavaScriptError }
          | none => none
      | none => none

/-- `ProcessManager::extract_clickable_errors`: scan the process's log
lines, apply `parse_error_line` to the Error-level ones. -/
def extract_clickable_errors (st : Registry) (id : String) : List ClickableError :=
  ((get_process_logs st id).filter (fun log => log.level = LogLevel.Error)).filterMap
    (fun log => parse_error_line log.content)

/-! ## Auxiliary predicates and concrete instances -/

/-- All three per-process buffers are within the retention cap. -/
def bufsLE (cap : Nat) (h : ProcessHandle) : Prop :=
  h.log_lines.length ≤ cap ∧ h.info.output_lines.length ≤ cap ∧
    h.info.error_lines.length ≤ cap

/-- Handle-level view of `monitor_stream`'s read loop. -/
def foldLines (cap : Nat) (source : LogSource) (h : ProcessHandle)
    (lines : List String) : ProcessHandle :=
  lines.foldl (fun h line => appendLine cap source line h) h

/-- A concrete `ProcessHandle` with empty buffers, for instantiating
the claim theorems. -/
def demoHandle (id : String) (status : ProcessStatus) (child : Option ChildProc) :
    ProcessHandle :=
  { info := { id := id, command := "cmd", args := [], working_dir := "/w"
              status := status, pid := some 7
              output_lines := [], error_lines := [] }
    child := child, log_lines := [] }

/-- The registry of the `stop_all` scenario: three records with live
children in Starting/Running and one already-Stopped record. -/
def demoStopAllReg : Registry :=
  [ ("p1", demoHandle "p1" ProcessStatus.Starting (some { pid := 1, killErr := none })),
    ("p2", demoHandle "p2" ProcessStatus.Running (some { pid := 2, killErr := none })),
    ("p3", demoHandle "p3" ProcessStatus.Running (some { pid := 3, killErr := none })),
    ("p4", demoHandle "p4" ProcessStatus.Stopped none) ]

/-- A handle with three buffered log lines, one of them an Error line
carrying a Python-traceback location. -/
def demoLogH : ProcessHandle :=
  { info := { id := "p", command := "cmd", args := [], working_dir := "/w"
              status := ProcessStatus.Running, pid := some 7
              output_lines := ["a", "b"], error_lines := ["ERROR: File \"/x.py\", line 3"] }
    child := none
    log_lines := [mkLogLine LogSource.Stdout "a", mkLogLine LogSource.Stdout "b",
                  mkLogLine LogSource.Stderr "ERROR: File \"/x.py\", line 3"] }

/-- Singleton registry around `demoLogH`. -/
def demoLogReg : Registry := [("p", demoLogH)]

/-- Singleton registry with a live, killable child, for the stop claims. -/
def demoStopReg : Registry :=
  [("p", demoHandle "p" ProcessStatus.Running (some { pid := 9, killErr := none }))]

/-- The registry state right after a successful
`start_simple_command [] _ "sleep_1" "/tmp" "sleep" ["60"]` spawn. -/
def demoSpawnSt : Registry :=
  (start_simple_command ([] : Registry) (Except.ok { pid := 4242, killErr := none })
    "sleep_1" "/tmp" "sleep" ["60"]).2


/-! ## Interleaving model for one process's workers

Per spawned process the program runs two stream-reader threads (stdout
and stderr) and one liveness-monitor thread, while the façade may call
`stop_process` / `cleanup_finished_processes` at any time. Each locked
section of the source is one atomic event here; an event whose thread
is not at the corresponding program point is a no-op, so every list of
events is a legal interleaving. -/

/-- Program point of a reader thread: before its `child.take()`, holding
the child during `monitor_stream`, or finished (after restoring the
child, or after `take` returned `None`). -/
inductive RdState where
  | idle
  | holding (c : ChildProc)
  | finished
deriving DecidableEq, Repr

/-- State of the whole one-process system: the shared registry, the two
reader threads, and whether the monitor loop is still active. -/
structure SysState where
  reg : Registry
  rdOut : RdState
  rdErr : RdState
  monActive : Bool
deriving DecidableEq, Repr

/-- Atomic events of the one-process system. `err` selects the stderr
reader thread; `line`/`r` carry the OS input consumed by the step. -/
inductive SysEvent where
  | takeChild (err : Bool)
  | readLine (err : Bool) (line : String)
  | restoreChild (err : Bool)
  | pollTick (r : PollResult)
  | stopCall
  | cleanupCall
deriving DecidableEq, Repr

/-- Reader-thread state selected by the flag. -/
def rdOf (s : SysState) : Bool → RdState
  | true => s.rdErr
  | false => s.rdOut

/-- Replace the selected reader-thread state. -/
def setRd (s : SysState) : Bool → RdState → SysState
  | true, r => { s with rdErr := r }
  | false, r => { s with rdOut := r }

/-- The child handle currently stored in the registry entry for `id`. -/
def regChild (reg : Registry) (id : String) : Option ChildProc :=
  (regLookup reg id).bind (fun h => h.child)

/-- One atomic step of the one-process system for the record `id`,
mirroring the corresponding locked sections of the source. -/
def sysStep (id : String) (s : SysState) (e : SysEvent) : SysState :=
  match e with
  | SysEvent.takeChild err =>
      match rdOf s err with
      | RdState.idle =>
          match regChild s.reg id with
          | some c =>
              setRd { s with reg := updateHandle s.reg id (fun h => { h with child := none }) }
                err (RdState.holding c)
          | none => setRd s err RdState.finished
      | _ => s
  | SysEvent.readLine err line =>
      match rdOf s err with
      | RdState.holding _ =>
          let src := if err then LogSource.Stderr else LogSource.Stdout
          { s with reg := updateHandle s.reg id (appendLine log_buffer_size src line) }
      | _ => s
  | SysEvent.restoreChild err =>
      match rdOf s err with
      | RdState.holding c =>
          setRd { s with reg := updateHandle s.reg id (fun h => { h with child := some c }) }
            err RdState.finished
      | _ => s
  | SysEvent.pollTick r =>
      if s.monActive then
        let pr := monitor_poll s.reg id r
        { s with reg := pr.1, monActive := pr.2 }
      else s
  | SysEvent.stopCall => { s with reg := (stop_process s.reg id).2 }
  | SysEvent.cleanupCall => { s with reg := cleanup_finished_processes s.reg }

/-- Run a list of events. -/
def sysRun (id : String) (s : SysState) (evs : List SysEvent) : SysState :=
  evs.foldl (sysStep id) s

/-- The record's status as the system sees it (`none` when the record
has been cleaned up). -/
def sysStatus (id : String) (s : SysState) : Option ProcessStatus :=
  (regLookup s.reg id).map (fun h => h.info.status)

/-- Stopped, Failed and Killed are the terminal statuses. -/
def isTerminal : ProcessStatus → Bool
  | ProcessStatus.Stopped => true
  | ProcessStatus.Failed => true
  | ProcessStatus.Killed => true
  | _ => false

/-- Position of a status along the forward state machine:
Starting before Running before the terminal statuses. -/
def statusRank : ProcessStatus → Nat
  | ProcessStatus.Starting => 0
  | ProcessStatus.Running => 1
  | _ => 2

/-- Whether a reader thread currently holds the child. -/
def isHolding : RdState → Bool
  | RdState.holding _ => true
  | _ => false

/-- The reachability invariant of the one-process system: (0) the
registry keys are distinct (`HashMap` semantics), (1) when the registry
entry holds the child no reader holds it, (2) at most one reader holds
the child, and (3) a terminal status implies the child is neither in
the registry entry nor held by a reader. -/
def SysInv (id : String) (s : SysState) : Prop :=
  (s.reg.map (fun e => e.1)).Nodup ∧
  ((regChild s.reg id).isSome = true →
      isHolding s.rdOut = false ∧ isHolding s.rdErr = false) ∧
  (¬(isHolding s.rdOut = true ∧ isHolding s.rdErr = true)) ∧
  (∀ st, sysStatus id s = some st → isTerminal st = true →
      regChild s.reg id = none ∧
      isHolding s.rdOut = false ∧ isHolding s.rdErr = false)

instance (id : String) (s : SysState) : Decidable (SysInv id s) := by
  unfold SysInv
  infer_instance

/-- The one-process system state right after the demo spawn: both
reader threads before their `take`, monitor active. -/
def demoSysState : SysState :=
  { reg := demoSpawnSt, rdOut := RdState.idle, rdErr := RdState.idle, monActive := true }

/-- A one-process system state whose record has already been stopped
(`Killed`), readers finished, monitor still polling. -/
def demoTermState : SysState :=
  { reg := [("p", demoHandle "p" ProcessStatus.Killed none)]
    rdOut := RdState.finished, rdErr := RdState.finished, monActive := true }

/-! # Registry lemmas -/

theorem regLookup_update_self (st : Registry) (id : String)
    (f : ProcessHandle → ProcessHandle) :
    regLookup (updateHandle st id f) id = (regLookup st id).map f := by
  induction st with
  | nil => rfl
  | cons e t ih =>
      obtain ⟨k, h⟩ := e
      by_cases hk : k = id
      · subst hk; simp [updateHandle, regLookup]
      · simp [updateHandle, regLookup, beq_iff_eq, hk, ih]

theorem regLookup_update_ne (st : Registry) (id k : String)
    (f : ProcessHandle → ProcessHandle) (hk : k ≠ id) :
    regLookup (updateHandle st id f) k = regLookup st k := by
  induction st with
  | nil => rfl
  | cons e t ih =>
      obtain ⟨k0, h⟩ := e
      by_cases h0 : k0 = id
      · subst h0
        have : ¬k0 = k := fun hcontra => hk (hcontra ▸ rfl)
        simp [updateHandle, regLookup, beq_iff_eq, Ne.symm hk]
      · simp [updateHandle, regLookup, beq_iff_eq, h0, ih]

theorem updateHandle_keys (st : Registry) (id : String)
    (f : ProcessHandle → ProcessHandle) :
    (updateHandle st id f).map (fun e => e.1) = st.map (fun e => e.1) := by
  induction st with
  | nil => rfl
  | cons e t ih =>
      obtain ⟨k, h⟩ := e
      by_cases hk : k = id
      · subst hk; simp [updateHandle]
      · simp [updateHandle, beq_iff_eq, hk, ih]

theorem updateHandle_const_of_lookup (st : Registry) (id : String) (h : ProcessHandle)
    (hl : regLookup st id = some h) :
    updateHandle st id (fun _ => h) = st := by
  induction st with
  | nil => rfl
  | cons e t ih =>
      obtain ⟨k, h0⟩ := e
      by_cases hk : k = id
      · subst hk
        simp only [regLookup, beq_self_eq_true, if_pos] at hl
        have hh : h0 = h := Option.some.inj hl
        subst hh
        simp [updateHandle]
      · simp only [regLookup, beq_iff_eq, hk, if_neg, if_false] at hl
        simp [updateHandle, beq_iff_eq, hk, ih hl]

theorem regLookup_eq_none_of_not_mem (st : Registry) (id : String)
    (h : id ∉ st.map (fun e => e.1)) : regLookup st id = none := by
  induction st with
  | nil => rfl
  | cons e t ih =>
      obtain ⟨k, h0⟩ := e
      simp only [List.map_cons, List.mem_cons] at h
      push_neg at h
      have hk : ¬k = id := fun hc => h.1 hc.symm
      simp [regLookup, beq_iff_eq, hk, ih h.2]

/-! # Claim C2 — log-level classification -/

/-- C2: `detect_log_level` classifies each line by case-insensitive
substring match with the rules checked in order — error/exception,
then warning/warn, then debug, then trace, else Info — first match
winning; in particular "ERROR: disk full" is Error,
"Warning: deprecated" is Warning, and "Starting server..." is Info. -/
theorem log_level_classification :
    (∀ line : String,
        (hasSub "error".data (lowerChars line) ||
         hasSub "exception".data (lowerChars line)) = true →
        detect_log_level line = LogLevel.Error) ∧
    (∀ line : String,
        (hasSub "error".data (lowerChars line) ||
         hasSub "exception".data (lowerChars line)) = false →
        (hasSub "warning".data (lowerChars line) ||
         hasSub "warn".data (lowerChars line)) = true →
        detect_log_level line = LogLevel.Warning) ∧
    (∀ line : String,
        (hasSub "error".data (lowerChars line) ||
         hasSub "exception".data (lowerChars line)) = false →
        (hasSub "warning".data (lowerChars line) ||
         hasSub "warn".data (lowerChars line)) = false →
        hasSub "debug".data (lowerChars line) = true →
        detect_log_level line = LogLevel.Debug) ∧
    (∀ line : String,
        (hasSub "error".data (lowerChars line) ||
         hasSub "exception".data (lowerChars line)) = false →
        (hasSub "warning".data (lowerChars line) ||
         hasSub "warn".data (lowerChars line)) = false →
        hasSub "debug".data (lowerChars line) = false →
        hasSub "trace".data (lowerChars line) = true →
        detect_log_level line = LogLevel.Trace) ∧
    (∀ line : String,
        (hasSub "error".data (lowerChars line) ||
         hasSub "exception".data (lowerChars line)) = false →
        (hasSub "warning".data (lowerChars line) ||
         hasSub "warn".data (lowerChars line)) = false →
        hasSub "debug".data (lowerChars line) = false →
        hasSub "trace".data (lowerChars line) = false →
        detect_log_level line = LogLevel.Info) ∧
    (detect_log_level "ERROR: disk full" = LogLevel.Error ∧
     detect_log_level "Warning: deprecated" = LogLevel.Warning ∧
     detect_log_level "Starting server..." = LogLevel.Info) := by
  refine ⟨?_, ?_, ?_, ?_, ?_, by decide, by decide, by decide⟩
  · intro line h1; simp [detect_log_level, h1]
  · intro line h1 h2; simp [detect_log_level, h1, h2]
  · intro line h1 h2 h3; simp [detect_log_level, h1, h2, h3]
  · intro line h1 h2 h3 h4; simp [detect_log_level, h1, h2, h3, h4]
  · intro line h1 h2 h3 h4; simp [detect_log_level, h1, h2, h3, h4]

/-- Witness for `log_level_classification`: each classification rule
applied at a concrete line. -/
theorem log_level_classification_witness :
    detect_log_level "an EXCEPTION occurred" = LogLevel.Error ∧
    detect_log_level "please be WARNed" = LogLevel.Warning ∧
    detect_log_level "verbose Debug output" = LogLevel.Debug ∧
    detect_log_level "span Trace id" = LogLevel.Trace ∧
    detect_log_level "all good" = LogLevel.Info :=
  ⟨log_level_classification.1 _ (by decide),
   log_level_classification.2.1 _ (by decide) (by decide),
   log_level_classification.2.2.1 _ (by decide) (by decide) (by decide),
   log_level_classification.2.2.2.1 _ (by decide) (by decide) (by decide) (by decide),
   log_level_classification.2.2.2.2.1 _ (by decide) (by decide) (by decide) (by decide)⟩

/-! # Claim C10 — queries on unknown ids -/

/-- C10: for an id absent from the registry, `get_process_info` returns
`none` and `get_process_logs` / `get_recent_logs` (for any count)
return the empty list — empty results, not errors. -/
theorem unknown_id_queries_empty (st : Registry) (id : String)
    (h : regLookup st id = none) :
    get_process_info st id = none ∧ get_process_logs st id = [] ∧
    ∀ n : Nat, get_recent_logs st id n = [] := by
  refine ⟨?_, ?_, fun n => ?_⟩
  · simp [get_process_info, h]
  · simp [get_process_logs, h]
  · simp [get_recent_logs, h]

/-- Witness for `unknown_id_queries_empty` on the empty registry. -/
theorem unknown_id_queries_empty_witness :
    get_process_info ([] : Registry) "ghost" = none ∧
    get_process_logs ([] : Registry) "ghost" = [] ∧
    ∀ n : Nat, get_recent_logs ([] : Registry) "ghost" n = [] :=
  unknown_id_queries_empty [] "ghost" rfl

/-! # Claim C8 — `get_recent_logs` tail semantics -/

/-- C8: for a present id, `get_recent_logs id n` returns the last `n`
elements of the log buffer in order (a suffix, `drop (len − n)`, of
length `min n len`), and the whole buffer when `n` is at least its
length. -/
theorem get_recent_logs_tail (st : Registry) (id : String) (h : ProcessHandle) (n : Nat)
    (hl : regLookup st id = some h) :
    get_recent_logs st id n = h.log_lines.drop (h.log_lines.length - n) ∧
    (h.log_lines.length ≤ n → get_recent_logs st id n = h.log_lines) ∧
    (get_recent_logs st id n).length = min n h.log_lines.length ∧
    h.log_lines.take (h.log_lines.length - n) ++ get_recent_logs st id n = h.log_lines := by
  have he : get_recent_logs st id n = h.log_lines.drop (h.log_lines.length - n) := by
    simp only [get_recent_logs, hl]
    by_cases hc : h.log_lines.length > n
    · simp [hc]
    · have h0 : h.log_lines.length - n = 0 := by omega
      simp [hc, h0]
  refine ⟨he, ?_, ?_, ?_⟩
  · intro hle
    have h0 : h.log_lines.length - n = 0 := by omega
    rw [he, h0]
    simp
  · rw [he, List.length_drop]
    omega
  · rw [he]
    exact List.take_append_drop _ _

/-- Witness for `get_recent_logs_tail` on a three-line buffer with
`n = 2`. -/
theorem get_recent_logs_tail_witness :
    (get_recent_logs demoLogReg "p" 2).length = min 2 demoLogH.log_lines.length :=
  (get_recent_logs_tail demoLogReg "p" demoLogH 2 rfl).2.2.1

/-! # Claim C5 — `stop_process` outcomes -/

/-- C5 counterexample: `stop_process` on an absent id fails with the
NotFound error string "Process not found", not with the NotRunning
error "Process is not running" the claim asserts. -/
theorem stop_absent_is_not_found :
    (stop_process ([] : Registry) "ghost").1 = Except.error "Process not found" ∧
    (Except.error "Process not found" : Except String Unit) ≠
      Except.error "Process is not running" := by
  refine ⟨rfl, fun hcontra => ?_⟩
  exact absurd (Except.error.inj hcontra) (by decide)

/-- C5 (amended): `stop_process` fails with the NotFound error when the
record is absent and with the NotRunning error when the record has no
live child handle; on success it sets the record's status to Killed and
clears the child, so an immediately repeated call returns the
NotRunning error; a failing kill surfaces the kill error unchanged. -/
theorem stop_process_results (st : Registry) (id : String) :
    (regLookup st id = none →
        stop_process st id = (Except.error "Process not found", st)) ∧
    (∀ h, regLookup st id = some h → h.child = none →
        stop_process st id = (Except.error "Process is not running", st)) ∧
    (∀ h c, regLookup st id = some h → h.child = some c → c.killErr = none →
        (stop_process st id).1 = Except.ok () ∧
        (get_process_info (stop_process st id).2 id).map (fun i => i.status) =
          some ProcessStatus.Killed ∧
        (regLookup (stop_process st id).2 id).bind (fun h => h.child) = none ∧
        (stop_process (stop_process st id).2 id).1 =
          Except.error "Process is not running") ∧
    (∀ h c e, regLookup st id = some h → h.child = some c → c.killErr = some e →
        stop_process st id = (Except.error ("Failed to kill process: " ++ e), st)) := by
  refine ⟨?_, ?_, ?_, ?_⟩
  · intro hn; simp [stop_process, hn]
  · intro h hl hc; simp [stop_process, hl, hc]
  · intro h c hl hc hk
    have hred : stop_process st id =
        (Except.ok (), updateHandle st id killHandle) := by
      simp only [stop_process, hl, hc, hk]
      rfl
    have hlook : regLookup (updateHandle st id killHandle) id = some (killHandle h) := by
      rw [regLookup_update_self, hl]; rfl
    refine ⟨by rw [hred], ?_, ?_, ?_⟩
    · rw [hred]
      simp [get_process_info, hlook, killHandle]
    · rw [hred]
      simp [hlook, killHandle]
    · rw [hred]
      simp [stop_process, hlook, killHandle]
  · intro h c e hl hc hk; simp [stop_process, hl, hc, hk]

/-- Witness for `stop_process_results`: the success branch and the
repeated call on a singleton registry with a live child. -/
theorem stop_process_results_witness :
    (stop_process demoStopReg "p").1 = Except.ok () ∧
    (get_process_info (stop_process demoStopReg "p").2 "p").map (fun i => i.status) =
      some ProcessStatus.Killed ∧
    (regLookup (stop_process demoStopReg "p").2 "p").bind (fun h => h.child) = none ∧
    (stop_process (stop_process demoStopReg "p").2 "p").1 =
      Except.error "Process is not running" :=
  (stop_process_results demoStopReg "p").2.2.1 _ _ rfl rfl rfl

/-! # Claim C6 — spawn failure leaves no trace -/

/-- C6: when the OS spawn fails, both spawn entry points return the
spawn error and leave the registry — and hence `list_processes` —
unchanged: no record, no partial state. -/
theorem spawn_failure_leaves_registry_unchanged (st : Registry) (e : String)
    (id working_dir command : String) (args : List String)
    (bid bench_path bcommand : String) (bargs : List String) :
    start_simple_command st (Except.error e) id working_dir command args =
      (Except.error ("Failed to start command: " ++ e), st) ∧
    start_bench_process st (Except.error e) bid bench_path bcommand bargs =
      (Except.error ("Failed to start bench process: " ++ e), st) ∧
    list_processes (start_simple_command st (Except.error e) id working_dir command args).2 =
      list_processes st ∧
    list_processes (start_bench_process st (Except.error e) bid bench_path bcommand bargs).2 =
      list_processes st :=
  ⟨rfl, rfl, rfl, rfl⟩

/-! # Claim C4 — the monitor never sees the child -/

/-- C4 (code bug): after a successful spawn the child handle is lost,
because `start_output_monitoring` tries to store it before the record
is inserted; the registry entry therefore has `child = none`, and the
first monitor poll — with the OS child still running — stops monitoring
and leaves the status `Starting` instead of promoting it to `Running`. -/
theorem first_poll_leaves_starting :
    (start_simple_command ([] : Registry) (Except.ok { pid := 4242, killErr := none })
        "sleep_1" "/tmp" "sleep" ["60"]).1 = Except.ok "sleep_1" ∧
    (regLookup demoSpawnSt "sleep_1").map (fun h => (h.info.status, h.child)) =
      some (ProcessStatus.Starting, none) ∧
    (monitor_poll demoSpawnSt "sleep_1" PollResult.stillRunning).2 = false ∧
    (get_process_info (monitor_poll demoSpawnSt "sleep_1" PollResult.stillRunning).1
        "sleep_1").map (fun i => i.status) = some ProcessStatus.Starting := by
  refine ⟨rfl, by decide, by decide, by decide⟩

/-! # Claim C9 — clickable-error extraction -/

/-- C9: `extract_clickable_errors` scans only Error-level log lines;
`parse_error_line` tries the Python-traceback pattern first (winning
when it matches), the stack-frame pattern second, and a line matching
neither yields no extracted location; the line
`File "/app/models.py", line 42` yields file_path "/app/models.py",
line_number 42, error_type PythonTraceback. -/
theorem clickable_errors_extraction :
    (∀ (st : Registry) (id : String) (e : ClickableError),
        e ∈ extract_clickable_errors st id →
        ∃ log, log ∈ get_process_logs st id ∧ log.level = LogLevel.Error ∧
          parse_error_line log.content = some e) ∧
    (∀ (line : String) (r : String × List Char), pyFind line.data = some r →
        parse_error_line line =
          match parseU32 r.2 with
          | some n => some { file_path := r.1, line_number := n, message := line
                             error_type := ErrorType.PythonTraceback }
          | none => none) ∧
    (∀ line : String, pyFind line.data = none → jsFind line.data = none →
        parse_error_line line = none) ∧
    parse_error_line "File \"/app/models.py\", line 42" =
      some { file_path := "/app/models.py", line_number := 42
             message := "File \"/app/models.py\", line 42"
             error_type := ErrorType.PythonTraceback } := by
  refine ⟨?_, ?_, ?_, by decide⟩
  · intro st id e he
    simp only [extract_clickable_errors, List.mem_filterMap, List.mem_filter] at he
    obtain ⟨log, ⟨hmem, hlv⟩, hp⟩ := he
    exact ⟨log, hmem, by simpa using hlv, hp⟩
  · intro line r hr
    simp [parse_error_line, hr]
  · intro line h1 h2
    simp [parse_error_line, h1, h2]

/-- Witness for `clickable_errors_extraction`: the Error line of
`demoLogReg` carries a Python-traceback location. -/
theorem clickable_errors_extraction_witness :
    ∃ log, log ∈ get_process_logs demoLogReg "p" ∧ log.level = LogLevel.Error ∧
      parse_error_line log.content =
        some { file_path := "/x.py", line_number := 3
               message := "ERROR: File \"/x.py\", line 3"
               error_type := ErrorType.PythonTraceback } :=
  clickable_errors_extraction.1 demoLogReg "p" _ (by decide)

/-! # Claim C1 — retention cap and sliding window -/

theorem trimBuf_of_le {α : Type} (cap : Nat) (l : List α) (h : l.length ≤ cap) :
    trimBuf cap l = l := by
  have hc : ¬l.length > cap := by omega
  simp [trimBuf, hc]

theorem length_trimBuf_le {α : Type} (cap : Nat) (l : List α) (h : l.length ≤ cap + 1) :
    (trimBuf cap l).length ≤ cap := by
  unfold trimBuf
  by_cases hc : l.length > cap
  · simp only [if_pos hc, List.length_tail]
    omega
  · simp only [if_neg hc]
    omega

theorem appendLine_fields (cap : Nat) (source : LogSource) (raw : String)
    (h : ProcessHandle) :
    (appendLine cap source raw h).log_lines =
      trimBuf cap (h.log_lines ++ [mkLogLine source raw]) ∧
    (appendLine cap source raw h).info.output_lines =
      trimBuf cap (h.info.output_lines ++
        (if source = LogSource.Stderr then [] else [trimEndStr raw])) ∧
    (appendLine cap source raw h).info.error_lines =
      trimBuf cap (h.info.error_lines ++
        (if source = LogSource.Stderr then [trimEndStr raw] else [])) ∧
    (appendLine cap source raw h).info.status = h.info.status ∧
    (appendLine cap source raw h).child = h.child := by
  cases source <;> simp [appendLine]

/-- C1 part (a) in cap-generic form: one append keeps all three buffers
within the cap. -/
theorem appendLine_bufsLE (cap : Nat) (source : LogSource) (raw : String)
    (h : ProcessHandle) (hb : bufsLE cap h) :
    bufsLE cap (appendLine cap source raw h) := by
  obtain ⟨h1, h2, h3⟩ := hb
  obtain ⟨e1, e2, e3, _, _⟩ := appendLine_fields cap source raw h
  refine ⟨?_, ?_, ?_⟩
  · rw [e1]
    apply length_trimBuf_le
    simp only [List.length_append, List.length_cons, List.length_nil]
    omega
  · rw [e2]
    apply length_trimBuf_le
    cases source <;> simp <;> omega
  · rw [e3]
    apply length_trimBuf_le
    cases source <;> simp <;> omega

theorem trimBuf_append_window {α : Type} (cap : Nat) (S : List α) (x : α) :
    trimBuf cap (S.drop (S.length - cap) ++ [x]) =
      (S ++ [x]).drop ((S ++ [x]).length - cap) := by
  rcases Nat.lt_or_ge S.length cap with hlt | hge
  · have h0 : S.length - cap = 0 := by omega
    have h1 : (S ++ [x]).length - cap = 0 := by
      simp only [List.length_append, List.length_cons, List.length_nil]
      omega
    rw [h0, h1]
    simp only [List.drop_zero]
    apply trimBuf_of_le
    simp only [List.length_append, List.length_cons, List.length_nil]
    omega
  · have hlen : (S.drop (S.length - cap)).length = cap := by
      rw [List.length_drop]
      omega
    have hgt : (S.drop (S.length - cap) ++ [x]).length > cap := by
      simp only [List.length_append, List.length_cons, List.length_nil, hlen]
      omega
    unfold trimBuf
    rw [if_pos hgt]
    rcases Nat.eq_zero_or_pos cap with hc0 | hcpos
    · subst hc0
      have hnil : S.drop (S.length - 0) = [] := by
        simp
      have hnil2 : (S ++ [x]).drop ((S ++ [x]).length - 0) = [] := by
        simp
      rw [hnil, hnil2]
      rfl
    · have h1le : 1 ≤ (S.drop (S.length - cap)).length := by omega
      rw [← List.drop_one, List.drop_append_of_le_length h1le, List.drop_drop]
      have harith : (S ++ [x]).length - cap = (S.length - cap) + 1 := by
        simp only [List.length_append, List.length_cons, List.length_nil]
        omega
      have hle2 : S.length - cap + 1 ≤ S.length := by omega
      rw [harith, List.drop_append_of_le_length hle2]

theorem foldl_trim_window {α β : Type} (cap : Nat) (f : β → α) :
    ∀ (L : List β) (S : List α),
      L.foldl (fun acc b => trimBuf cap (acc ++ [f b])) (S.drop (S.length - cap)) =
        (S ++ L.map f).drop ((S ++ L.map f).length - cap) := by
  intro L
  induction L with
  | nil => intro S; simp
  | cons x t ih =>
      intro S
      simp only [List.foldl_cons, List.map_cons]
      rw [trimBuf_append_window]
      have h2 := ih (S ++ [f x])
      rw [List.append_cons S (f x) (t.map f)]
      exact h2

/-- Folding the push-then-trim step from an empty buffer leaves exactly
the last `cap` pushed elements, in order. -/
theorem foldl_trim_window_nil {α β : Type} (cap : Nat) (f : β → α) (L : List β) :
    L.foldl (fun acc b => trimBuf cap (acc ++ [f b])) [] =
      (L.map f).drop ((L.map f).length - cap) := by
  have h := foldl_trim_window cap f L []
  simpa using h

theorem foldLines_stdout (cap : Nat) :
    ∀ (L : List String) (h : ProcessHandle),
      h.info.error_lines.length ≤ cap →
      (foldLines cap LogSource.Stdout h L).log_lines =
        L.foldl (fun acc line => trimBuf cap (acc ++ [mkLogLine LogSource.Stdout line]))
          h.log_lines ∧
      (foldLines cap LogSource.Stdout h L).info.output_lines =
        L.foldl (fun acc line => trimBuf cap (acc ++ [trimEndStr line]))
          h.info.output_lines ∧
      (foldLines cap LogSource.Stdout h L).info.error_lines = h.info.error_lines := by
  intro L
  induction L with
  | nil => intro h he; exact ⟨rfl, rfl, rfl⟩
  | cons x t ih =>
      intro h he
      obtain ⟨e1, e2, e3, _, _⟩ := appendLine_fields cap LogSource.Stdout x h
      simp only [if_neg (by simp : ¬LogSource.Stdout = LogSource.Stderr),
        List.append_nil] at e2 e3
      rw [trimBuf_of_le cap _ he] at e3
      have he' : (appendLine cap LogSource.Stdout x h).info.error_lines.length ≤ cap := by
        rw [e3]; exact he
      obtain ⟨i1, i2, i3⟩ := ih (appendLine cap LogSource.Stdout x h) he'
      refine ⟨?_, ?_, ?_⟩
      · show (foldLines cap LogSource.Stdout (appendLine cap LogSource.Stdout x h) t).log_lines = _
        rw [i1, e1]
        rfl
      · show (foldLines cap LogSource.Stdout
            (appendLine cap LogSource.Stdout x h) t).info.output_lines = _
        rw [i2, e2]
        rfl
      · show (foldLines cap LogSource.Stdout
            (appendLine cap LogSource.Stdout x h) t).info.error_lines = _
        rw [i3, e3]

theorem monitor_stream_lookup (cap : Nat) (source : LogSource) :
    ∀ (L : List String) (st : Registry) (id : String) (h : ProcessHandle),
      regLookup st id = some h →
      regLookup (monitor_stream cap st id source L) id =
        some (foldLines cap source h L) := by
  intro L
  induction L with
  | nil => intro st id h hl; simpa [monitor_stream, foldLines] using hl
  | cons x t ih =>
      intro st id h hl
      have h1 : regLookup (updateHandle st id (appendLine cap source x)) id =
          some (appendLine cap source x h) := by
        rw [regLookup_update_self, hl]
        rfl
      have h2 := ih (updateHandle st id (appendLine cap source x)) id _ h1
      simpa [monitor_stream, foldLines] using h2

/-- C1: each reader append keeps the `log_lines`, `output_lines` and
`error_lines` buffers within the 1000-line retention cap, and on a
single stream starting from a fresh record, after more than 1000 lines
are emitted `get_process_logs` returns exactly the most recent 1000
lines in emission order (oldest evicted first), `output_lines` holding
the same window of raw trimmed text. -/
theorem retention_cap_and_window :
    (∀ (source : LogSource) (raw : String) (h : ProcessHandle),
        bufsLE log_buffer_size h →
        bufsLE log_buffer_size (appendLine log_buffer_size source raw h)) ∧
    (∀ (id : String) (h0 : ProcessHandle) (lines : List String),
        h0.log_lines = [] → h0.info.output_lines = [] → h0.info.error_lines = [] →
        log_buffer_size < lines.length →
        get_process_logs (monitor_stream log_buffer_size [(id, h0)] id LogSource.Stdout lines)
            id =
          (lines.map (mkLogLine LogSource.Stdout)).drop (lines.length - log_buffer_size) ∧
        (get_process_logs (monitor_stream log_buffer_size [(id, h0)] id LogSource.Stdout lines)
            id).length = log_buffer_size ∧
        (get_process_info (monitor_stream log_buffer_size [(id, h0)] id LogSource.Stdout lines)
            id).map (fun i => i.output_lines) =
          some ((lines.map trimEndStr).drop (lines.length - log_buffer_size))) := by
  constructor
  · intro source raw h hb
    exact appendLine_bufsLE log_buffer_size source raw h hb
  · intro id h0 lines hlog hout herr hlen
    have hl0 : regLookup [(id, h0)] id = some h0 := by
      simp [regLookup]
    have hlook := monitor_stream_lookup log_buffer_size LogSource.Stdout lines
      [(id, h0)] id h0 hl0
    have hcap : h0.info.error_lines.length ≤ log_buffer_size := by
      rw [herr]; exact Nat.zero_le _
    obtain ⟨f1, f2, _⟩ := foldLines_stdout log_buffer_size lines h0 hcap
    rw [hlog] at f1
    rw [hout] at f2
    rw [foldl_trim_window_nil] at f1 f2
    have hmaplen : (lines.map (mkLogLine LogSource.Stdout)).length = lines.length := by
      simp
    have hmaplen2 : (lines.map trimEndStr).length = lines.length := by
      simp
    refine ⟨?_, ?_, ?_⟩
    · simp only [get_process_logs, hlook]
      rw [f1, hmaplen]
    · simp only [get_process_logs, hlook]
      rw [f1, List.length_drop, hmaplen]
      omega
    · simp [get_process_info, hlook, f2, hmaplen2]

/-- Witness for `retention_cap_and_window`: one append on an empty
record, and 1001 lines on a fresh record leaving exactly 1000. -/
theorem retention_cap_and_window_witness :
    bufsLE log_buffer_size (appendLine log_buffer_size LogSource.Stdout "x"
      (demoHandle "w" ProcessStatus.Running none)) ∧
    (get_process_logs (monitor_stream log_buffer_size
        [("w", demoHandle "w" ProcessStatus.Starting none)] "w" LogSource.Stdout
        (List.replicate 1001 "x")) "w").length = log_buffer_size :=
  ⟨retention_cap_and_window.1 LogSource.Stdout "x" (demoHandle "w" ProcessStatus.Running none)
      ⟨by simp [demoHandle], by simp [demoHandle], by simp [demoHandle]⟩,
   (retention_cap_and_window.2 "w" (demoHandle "w" ProcessStatus.Starting none)
      (List.replicate 1001 "x") rfl rfl rfl
      (by rw [List.length_replicate]; norm_num [log_buffer_size])).2.1⟩

/-! # Claim C7 — best-effort `stop_all_processes` -/

theorem stop_process_ok_eq (st : Registry) (id : String) (h : ProcessHandle) (c : ChildProc)
    (hl : regLookup st id = some h) (hc : h.child = some c) (hk : c.killErr = none) :
    stop_process st id = (Except.ok (), updateHandle st id killHandle) := by
  simp only [stop_process, hl, hc, hk]
  rfl

theorem stop_process_fail_eq (st : Registry) (id : String)
    (hok : stopOk (regLookup st id) = false) :
    (stop_process st id).2 = st ∧ ∃ e, (stop_process st id).1 = Except.error e := by
  rcases hl : regLookup st id with _ | h
  · simp [stop_process, hl]
  · rcases hc : h.child with _ | c
    · simp [stop_process, hl, hc]
    · rcases hk : c.killErr with _ | e
      · rw [hl] at hok
        simp [stopOk, hc, hk] at hok
      · simp [stop_process, hl, hc, hk]

theorem stopAllGo_spec :
    ∀ (ids : List String) (st : Registry) (acc : List String),
      ids.Nodup →
      (stopAllGo (acc, st) ids).1 =
        acc ++ ids.filter (fun i => stopOk (regLookup st i)) ∧
      (∀ k, regLookup (stopAllGo (acc, st) ids).2 k =
        if k ∈ ids ∧ stopOk (regLookup st k) = true
        then (regLookup st k).map killHandle
        else regLookup st k) := by
  intro ids
  induction ids with
  | nil =>
      intro st acc _
      refine ⟨by simp [stopAllGo], fun k => ?_⟩
      simp [stopAllGo]
  | cons i t ih =>
      intro st acc hnd
      have hnd' : t.Nodup := (List.nodup_cons.mp hnd).2
      have hnotmem : i ∉ t := (List.nodup_cons.mp hnd).1
      by_cases hok : stopOk (regLookup st i) = true
      · -- successful stop of the head id
        rcases hl : regLookup st i with _ | h
        · rw [hl] at hok; simp [stopOk] at hok
        rcases hc : h.child with _ | c
        · rw [hl] at hok; simp [stopOk, hc] at hok
        rcases hk : c.killErr with _ | e
        swap
        · rw [hl] at hok; simp [stopOk, hc, hk] at hok
        have hred := stop_process_ok_eq st i h c hl hc hk
        have hstep : stopAllGo (acc, st) (i :: t) =
            stopAllGo (acc ++ [i], updateHandle st i killHandle) t := by
          simp [stopAllGo, hred]
        have hlki : regLookup (updateHandle st i killHandle) i =
            (regLookup st i).map killHandle := regLookup_update_self st i killHandle
        have hlk : ∀ k, k ≠ i →
            regLookup (updateHandle st i killHandle) k = regLookup st k :=
          fun k hkne => regLookup_update_ne st i k killHandle hkne
        obtain ⟨ih1, ih2⟩ := ih (updateHandle st i killHandle) (acc ++ [i]) hnd'
        constructor
        · rw [hstep, ih1]
          have hfeq : t.filter
              (fun j => stopOk (regLookup (updateHandle st i killHandle) j)) =
              t.filter (fun j => stopOk (regLookup st j)) := by
            apply List.filter_congr
            intro j hj
            have hji : j ≠ i := fun he => hnotmem (he ▸ hj)
            rw [hlk j hji]
          rw [hfeq, List.filter_cons, if_pos (by simpa using hok)]
          simp
        · intro k
          rw [hstep]
          have hk2 := ih2 k
          by_cases hkeq : k = i
          · subst hkeq
            rw [hk2, if_neg (fun hcontra => hnotmem hcontra.1), hlki,
              if_pos ⟨List.mem_cons_self k t, hok⟩]
          · rw [hk2, hlk k hkeq]
            by_cases hcc : k ∈ t ∧ stopOk (regLookup st k) = true
            · rw [if_pos hcc, if_pos ⟨List.mem_cons_of_mem i hcc.1, hcc.2⟩]
            · rw [if_neg hcc, if_neg (fun hcontra => ?_)]
              rcases hcontra with ⟨hm, hp⟩
              rcases List.mem_cons.mp hm with hmi | hmt
              · exact hkeq hmi
              · exact hcc ⟨hmt, hp⟩
      · -- failed stop of the head id: registry unchanged
        have hok' : stopOk (regLookup st i) = false := by
          cases hx : stopOk (regLookup st i)
          · rfl
          · exact absurd hx hok
        obtain ⟨h2, e, h1⟩ := stop_process_fail_eq st i hok'
        have hstep : stopAllGo (acc, st) (i :: t) = stopAllGo (acc, st) t := by
          simp only [stopAllGo, h1, h2]
        obtain ⟨ih1, ih2⟩ := ih st acc hnd'
        constructor
        · rw [hstep, ih1, List.filter_cons, if_neg (by simp [hok'])]
        · intro k
          rw [hstep]
          have hk2 := ih2 k
          by_cases hkeq : k = i
          · subst hkeq
            rw [hk2, if_neg (fun hcontra => hnotmem hcontra.1),
              if_neg (fun hcontra => by rw [hok'] at hcontra; exact absurd hcontra.2 (by simp))]
          · rw [hk2]
            by_cases hcc : k ∈ t ∧ stopOk (regLookup st k) = true
            · rw [if_pos hcc, if_pos ⟨List.mem_cons_of_mem i hcc.1, hcc.2⟩]
            · rw [if_neg hcc, if_neg (fun hcontra => ?_)]
              rcases hcontra with ⟨hm, hp⟩
              rcases List.mem_cons.mp hm with hmi | hmt
              · exact hkeq hmi
              · exact hcc ⟨hmt, hp⟩

/-- C7: `stop_all_processes` never fails as a whole operation — it
always returns `Ok`; with distinct keys it attempts `stop_process` on
every currently-known id, swallows per-id failures, and returns exactly
the ids whose stop succeeded, killing exactly those records; on the
3-running-plus-1-stopped scenario it returns exactly the 3 stopped
ids and leaves all four records terminal (Killed, Killed, Killed,
Stopped). -/
theorem stop_all_best_effort :
    (∀ st : Registry, ∃ l, (stop_all_processes st).1 = Except.ok l) ∧
    (∀ st : Registry, (st.map (fun e => e.1)).Nodup →
        (stop_all_processes st).1 =
          Except.ok ((st.map (fun e => e.1)).filter (fun i => stopOk (regLookup st i))) ∧
        (∀ k, regLookup (stop_all_processes st).2 k =
          if k ∈ st.map (fun e => e.1) ∧ stopOk (regLookup st k) = true
          then (regLookup st k).map killHandle
          else regLookup st k)) ∧
    ((stop_all_processes demoStopAllReg).1 = Except.ok ["p1", "p2", "p3"] ∧
     (list_processes (stop_all_processes demoStopAllReg).2).map
        (fun i => (i.id, i.status)) =
       [("p1", ProcessStatus.Killed), ("p2", ProcessStatus.Killed),
        ("p3", ProcessStatus.Killed), ("p4", ProcessStatus.Stopped)]) := by
  refine ⟨fun st => ⟨_, rfl⟩, fun st hnd => ?_, by decide, by decide⟩
  obtain ⟨h1, h2⟩ := stopAllGo_spec (st.map (fun e => e.1)) st [] hnd
  exact ⟨by rw [show (stop_all_processes st).1 =
      Except.ok (stopAllGo ([], st) (st.map (fun e => e.1))).1 from rfl, h1]; rfl,
    fun k => by
      rw [show (stop_all_processes st).2 =
        (stopAllGo ([], st) (st.map (fun e => e.1))).2 from rfl, h2 k]⟩

/-- Witness for `stop_all_best_effort`: the nodup-keyed general result
applied to the scenario registry. -/
theorem stop_all_best_effort_witness :
    (stop_all_processes demoStopAllReg).1 =
      Except.ok ((demoStopAllReg.map (fun e => e.1)).filter
        (fun i => stopOk (regLookup demoStopAllReg i))) :=
  (stop_all_best_effort.2.1 demoStopAllReg (by decide)).1

/-! # Claim C3 — forward-only status transitions -/

theorem filter_keys_sub (p : String × ProcessHandle → Bool) (st : Registry) (k : String)
    (hmem : k ∈ (st.filter p).map (fun e => e.1)) : k ∈ st.map (fun e => e.1) := by
  rcases List.mem_map.mp hmem with ⟨e2, he2, heq⟩
  exact heq ▸ List.mem_map_of_mem _ (List.mem_of_mem_filter he2)

theorem regLookup_filter_nodup (p : String × ProcessHandle → Bool) :
    ∀ (st : Registry), (st.map (fun e => e.1)).Nodup → ∀ k,
      regLookup (st.filter p) k =
        (regLookup st k).bind (fun h => if p (k, h) then some h else none) := by
  intro st
  induction st with
  | nil => intro _ k; rfl
  | cons e t ih =>
      obtain ⟨k0, h0⟩ := e
      intro hnd k
      simp only [List.map_cons, List.nodup_cons] at hnd
      have hk0 : k0 ∉ t.map (fun e => e.1) := hnd.1
      have hnd' := hnd.2
      by_cases hke : k0 = k
      · subst hke
        by_cases hp : p (k0, h0)
        · simp [List.filter_cons, hp, regLookup]
        · have hnone : regLookup (t.filter p) k0 = none := by
            apply regLookup_eq_none_of_not_mem
            intro hmem
            exact hk0 (filter_keys_sub p t k0 hmem)
          simp [List.filter_cons, hp, regLookup, hnone]
      · by_cases hp : p (k0, h0)
        · simp [List.filter_cons, hp, regLookup, beq_iff_eq, hke, ih hnd' k]
        · simp [List.filter_cons, hp, regLookup, beq_iff_eq, hke, ih hnd' k]

theorem filter_keys_nodup (p : String × ProcessHandle → Bool) (st : Registry)
    (hnd : (st.map (fun e => e.1)).Nodup) : ((st.filter p).map (fun e => e.1)).Nodup := by
  induction st with
  | nil => simp
  | cons e t ih =>
      simp only [List.map_cons, List.nodup_cons] at hnd
      by_cases hp : p e
      · simp only [List.filter_cons, if_pos hp, List.map_cons, List.nodup_cons]
        exact ⟨fun hmem => hnd.1 (filter_keys_sub p t e.1 hmem), ih hnd.2⟩
      · simp only [List.filter_cons, if_neg hp]
        exact ih hnd.2

theorem regStatus_update (reg : Registry) (id : String)
    (f : ProcessHandle → ProcessHandle)
    (hf : ∀ h, (f h).info.status = h.info.status) :
    (regLookup (updateHandle reg id f) id).map (fun h => h.info.status) =
      (regLookup reg id).map (fun h => h.info.status) := by
  rw [regLookup_update_self]
  rcases regLookup reg id with _ | h
  · rfl
  · simp [hf]

theorem sysStatus_setRd (id : String) (s : SysState) (err : Bool) (r : RdState) :
    sysStatus id (setRd s err r) = sysStatus id s := by
  cases err <;> rfl

theorem regChild_setRd (id : String) (s : SysState) (err : Bool) (r : RdState) :
    regChild (setRd s err r).reg id = regChild s.reg id := by
  cases err <;> rfl

theorem statusRank_lt_two (st : ProcessStatus) (h : isTerminal st = false) :
    statusRank st < 2 := by
  cases st <;> simp [isTerminal] at h ⊢ <;> simp [statusRank]

theorem cleanup_lookup_cases (st : Registry) (hnd : (st.map (fun e => e.1)).Nodup)
    (k : String) :
    regLookup (cleanup_finished_processes st) k = regLookup st k ∨
    regLookup (cleanup_finished_processes st) k = none := by
  unfold cleanup_finished_processes
  rw [regLookup_filter_nodup _ st hnd k]
  rcases regLookup st k with _ | h
  · left; rfl
  · by_cases hp : ¬(h.info.status = ProcessStatus.Stopped ∨
        h.info.status = ProcessStatus.Failed ∨ h.info.status = ProcessStatus.Killed)
    · left
      simp [hp]
      push_neg at hp
      exact hp
    · right
      simp [hp]
      intro h1 h2
      rcases not_not.mp hp with h' | h' | h'
      · exact absurd h' h1
      · exact absurd h' h2
      · exact h'

/-- Every atomic step, from a state satisfying the invariant, either
leaves the record's status unchanged, removes the record, or moves the
status strictly forward from a non-terminal status, never to Starting. -/
theorem sysStep_status_cases (id : String) (s : SysState) (e : SysEvent)
    (hInv : SysInv id s) :
    sysStatus id (sysStep id s e) = sysStatus id s ∨
    sysStatus id (sysStep id s e) = none ∨
    (∃ st st', sysStatus id s = some st ∧ isTerminal st = false ∧
      sysStatus id (sysStep id s e) = some st' ∧ statusRank st < statusRank st' ∧
      st' ≠ ProcessStatus.Starting) := by
  obtain ⟨hnd, hcl1, hcl2, hcl3⟩ := hInv
  cases e with
  | takeChild err =>
      left
      cases hrd : rdOf s err with
      | idle =>
          cases hch : regChild s.reg id with
          | none =>
              simp only [sysStep, hrd, hch]
              rw [sysStatus_setRd]
          | some c =>
              simp only [sysStep, hrd, hch]
              rw [sysStatus_setRd]
              exact regStatus_update s.reg id _ (fun h => rfl)
      | holding c => simp [sysStep, hrd]
      | finished => simp [sysStep, hrd]
  | readLine err line =>
      left
      cases hrd : rdOf s err with
      | idle => simp [sysStep, hrd]
      | holding c =>
          simp only [sysStep, hrd]
          exact regStatus_update s.reg id _
            (fun h => (appendLine_fields _ _ _ h).2.2.2.1)
      | finished => simp [sysStep, hrd]
  | restoreChild err =>
      left
      cases hrd : rdOf s err with
      | idle => simp [sysStep, hrd]
      | holding c =>
          simp only [sysStep, hrd]
          rw [sysStatus_setRd]
          exact regStatus_update s.reg id _ (fun h => rfl)
      | finished => simp [sysStep, hrd]
  | pollTick r =>
      by_cases hmon : s.monActive
      case neg => left; simp [sysStep, hmon]
      case pos =>
      rcases hl : regLookup s.reg id with _ | h
      · left
        simp [sysStep, hmon, monitor_poll, hl, sysStatus]
      · rcases hc : h.child with _ | c
        · left
          simp only [sysStep, if_pos hmon, monitor_poll, hl, poll_step, hc]
          have heq : updateHandle s.reg id (fun _ => h) = s.reg :=
            updateHandle_const_of_lookup s.reg id h hl
          simp only [sysStatus]
          rw [heq, hl]
        · have hterm : isTerminal h.info.status = false := by
            cases hx : isTerminal h.info.status
            · rfl
            · have h3 := hcl3 h.info.status (by simp [sysStatus, hl]) hx
              rw [regChild, hl] at h3
              simp [hc] at h3
          cases r with
          | stillRunning =>
              by_cases hst : h.info.status = ProcessStatus.Starting
              · right; right
                refine ⟨ProcessStatus.Starting, ProcessStatus.Running,
                  by simp [sysStatus, hl, hst], rfl, ?_, by decide, by decide⟩
                simp only [sysStep, if_pos hmon, monitor_poll, hl, poll_step, hc,
                  if_pos hst, sysStatus]
                rw [regLookup_update_self, hl]
                rfl
              · left
                simp only [sysStep, if_pos hmon, monitor_poll, hl, poll_step, hc,
                  if_neg hst, sysStatus]
                have heq : updateHandle s.reg id (fun _ => h) = s.reg :=
                  updateHandle_const_of_lookup s.reg id h hl
                rw [heq, hl]
          | exited success =>
              right; right
              refine ⟨h.info.status,
                (if success then ProcessStatus.Stopped else ProcessStatus.Failed),
                by simp [sysStatus, hl], hterm, ?_, ?_, ?_⟩
              · simp only [sysStep, if_pos hmon, monitor_poll, hl, poll_step, hc, sysStatus]
                rw [regLookup_update_self, hl]
                rfl
              · have hlt := statusRank_lt_two _ hterm
                cases success
                · have h2 : statusRank ProcessStatus.Failed = 2 := rfl
                  simpa [h2] using hlt
                · have h2 : statusRank ProcessStatus.Stopped = 2 := rfl
                  simpa [h2] using hlt
              · cases success <;> decide
          | pollErr =>
              right; right
              refine ⟨h.info.status, ProcessStatus.Failed,
                by simp [sysStatus, hl], hterm, ?_, ?_, by decide⟩
              · simp only [sysStep, if_pos hmon, monitor_poll, hl, poll_step, hc, sysStatus]
                rw [regLookup_update_self, hl]
                rfl
              · have hlt := statusRank_lt_two _ hterm
                have h2 : statusRank ProcessStatus.Failed = 2 := rfl
                simpa [h2] using hlt
  | stopCall =>
      rcases hl : regLookup s.reg id with _ | h
      · left
        simp [sysStep, stop_process, hl, sysStatus]
      · rcases hc : h.child with _ | c
        · left
          simp [sysStep, stop_process, hl, hc, sysStatus]
        · rcases hk : c.killErr with _ | err2
          · right; right
            have hterm : isTerminal h.info.status = false := by
              cases hx : isTerminal h.info.status
              · rfl
              · have h3 := hcl3 h.info.status (by simp [sysStatus, hl]) hx
                rw [regChild, hl] at h3
                simp [hc] at h3
            refine ⟨h.info.status, ProcessStatus.Killed,
              by simp [sysStatus, hl], hterm, ?_, ?_, by decide⟩
            · simp only [sysStep, stop_process, hl, hc, hk, sysStatus]
              rw [regLookup_update_self, hl]
              rfl
            · have hlt := statusRank_lt_two _ hterm
              have h2 : statusRank ProcessStatus.Killed = 2 := rfl
              simpa [h2] using hlt
          · left
            simp [sysStep, stop_process, hl, hc, hk, sysStatus]
  | cleanupCall =>
      rcases cleanup_lookup_cases s.reg hnd id with hca | hca
      · left
        simp only [sysStep, sysStatus]
        rw [hca]
      · right; left
        simp only [sysStep, sysStatus]
        rw [hca]
        rfl

theorem regChild_update_self (reg : Registry) (id : String)
    (f : ProcessHandle → ProcessHandle) :
    regChild (updateHandle reg id f) id =
      (regLookup reg id).bind (fun h => (f h).child) := by
  rw [regChild, regLookup_update_self]
  rcases regLookup reg id with _ | h <;> rfl

theorem regChild_update (reg : Registry) (id : String)
    (f : ProcessHandle → ProcessHandle) (hf : ∀ h, (f h).child = h.child) :
    regChild (updateHandle reg id f) id = regChild reg id := by
  rw [regChild_update_self, regChild]
  rcases regLookup reg id with _ | h
  · rfl
  · simp [hf]

theorem regStatus_update_self (reg : Registry) (id : String)
    (f : ProcessHandle → ProcessHandle) :
    (regLookup (updateHandle reg id f) id).map (fun h => h.info.status) =
      (regLookup reg id).map (fun h => (f h).info.status) := by
  rw [regLookup_update_self]
  rcases regLookup reg id with _ | h <;> rfl

/-- Every atomic step preserves the reachability invariant. -/
theorem sysInv_step (id : String) (s : SysState) (e : SysEvent) (hInv : SysInv id s) :
    SysInv id (sysStep id s e) := by
  obtain ⟨hnd, hcl1, hcl2, hcl3⟩ := hInv
  cases e with
  | takeChild err =>
      cases hrd : rdOf s err with
      | holding c => simpa [sysStep, hrd] using ⟨hnd, hcl1, hcl2, hcl3⟩
      | finished => simpa [sysStep, hrd] using ⟨hnd, hcl1, hcl2, hcl3⟩
      | idle =>
          cases hch : regChild s.reg id with
          | none =>
              -- reader finds no child and finishes; registry unchanged
              cases err
              · simp only [sysStep, hrd, hch, setRd]
                refine ⟨hnd, fun hs => ⟨rfl, (hcl1 hs).2⟩, by simp [isHolding], ?_⟩
                intro st hst hterm
                have h3 := hcl3 st hst hterm
                exact ⟨h3.1, rfl, h3.2.2⟩
              · simp only [sysStep, hrd, hch, setRd]
                refine ⟨hnd, fun hs => ⟨(hcl1 hs).1, rfl⟩, by simp [isHolding], ?_⟩
                intro st hst hterm
                have h3 := hcl3 st hst hterm
                exact ⟨h3.1, h3.2.1, rfl⟩
          | some c =>
              -- reader takes the child out of the registry entry
              have hne : regChild (updateHandle s.reg id
                  (fun h => { h with child := none })) id = none := by
                rw [regChild_update_self]
                rcases regLookup s.reg id with _ | h0 <;> rfl
              have hself := regStatus_update s.reg id
                (fun h => { h with child := none }) (fun h => rfl)
              have hh := hcl1 (by rw [hch]; rfl)
              have hpre : ∀ st, sysStatus id s = some st → isTerminal st = true → False := by
                intro st hst hterm
                have h3 := hcl3 st hst hterm
                rw [h3.1] at hch
                cases hch
              cases err
              · simp only [sysStep, hrd, hch, setRd]
                refine ⟨?_, ?_, ?_, ?_⟩
                · show ((updateHandle s.reg id _).map (fun e => e.1)).Nodup
                  rw [updateHandle_keys]
                  exact hnd
                · intro hs
                  have hs' : (regChild (updateHandle s.reg id
                      (fun h => { h with child := none })) id).isSome = true := hs
                  rw [hne] at hs'
                  simp at hs'
                · intro hcontra
                  have hx : isHolding s.rdErr = true := hcontra.2
                  rw [hh.2] at hx
                  simp at hx
                · intro st hst hterm
                  exfalso
                  apply hpre st _ hterm
                  rw [← hst]
                  show sysStatus id s = _
                  exact (hself).symm
              · simp only [sysStep, hrd, hch, setRd]
                refine ⟨?_, ?_, ?_, ?_⟩
                · show ((updateHandle s.reg id _).map (fun e => e.1)).Nodup
                  rw [updateHandle_keys]
                  exact hnd
                · intro hs
                  have hs' : (regChild (updateHandle s.reg id
                      (fun h => { h with child := none })) id).isSome = true := hs
                  rw [hne] at hs'
                  simp at hs'
                · intro hcontra
                  have hx : isHolding s.rdOut = true := hcontra.1
                  rw [hh.1] at hx
                  simp at hx
                · intro st hst hterm
                  exfalso
                  apply hpre st _ hterm
                  rw [← hst]
                  show sysStatus id s = _
                  exact (hself).symm
  | readLine err line =>
      cases hrd : rdOf s err with
      | idle => simpa [sysStep, hrd] using ⟨hnd, hcl1, hcl2, hcl3⟩
      | finished => simpa [sysStep, hrd] using ⟨hnd, hcl1, hcl2, hcl3⟩
      | holding c =>
          simp only [sysStep, hrd]
          have hch := regChild_update
            s.reg id (appendLine log_buffer_size (if err then LogSource.Stderr
              else LogSource.Stdout) line)
            (fun h => (appendLine_fields _ _ _ h).2.2.2.2)
          have hst := regStatus_update
            s.reg id (appendLine log_buffer_size (if err then LogSource.Stderr
              else LogSource.Stdout) line)
            (fun h => (appendLine_fields _ _ _ h).2.2.2.1)
          refine ⟨?_, ?_, hcl2, ?_⟩
          · show ((updateHandle s.reg id _).map (fun e => e.1)).Nodup
            rw [updateHandle_keys]
            exact hnd
          · intro hs
            apply hcl1
            rw [← hch]
            exact hs
          · intro st hsome hterm
            have hsome' : sysStatus id s = some st := by
              rw [← hsome]
              exact hst.symm
            have h3 := hcl3 st hsome' hterm
            exact ⟨hch.trans h3.1, h3.2.1, h3.2.2⟩
  | restoreChild err =>
      cases hrd : rdOf s err with
      | idle => simpa [sysStep, hrd] using ⟨hnd, hcl1, hcl2, hcl3⟩
      | finished => simpa [sysStep, hrd] using ⟨hnd, hcl1, hcl2, hcl3⟩
      | holding c =>
          have hself := regStatus_update s.reg id
            (fun h => { h with child := some c }) (fun h => rfl)
          have hpre : ∀ st, sysStatus id s = some st → isTerminal st = true → False := by
            intro st hst hterm
            have h3 := hcl3 st hst hterm
            cases err
            · have hrd' : s.rdOut = RdState.holding c := hrd
              rw [hrd'] at h3
              exact absurd h3.2.1 (by simp [isHolding])
            · have hrd' : s.rdErr = RdState.holding c := hrd
              rw [hrd'] at h3
              exact absurd h3.2.2 (by simp [isHolding])
          cases err
          · have hother : isHolding s.rdErr = false := by
              cases hx : isHolding s.rdErr
              · rfl
              · exact absurd ⟨by rw [show s.rdOut = RdState.holding c from hrd]; rfl, hx⟩ hcl2
            simp only [sysStep, hrd, setRd]
            refine ⟨?_, ?_, ?_, ?_⟩
            · show ((updateHandle s.reg id _).map (fun e => e.1)).Nodup
              rw [updateHandle_keys]
              exact hnd
            · intro _
              exact ⟨rfl, hother⟩
            · intro hcontra
              exact absurd hcontra.1 (by simp [isHolding])
            · intro st hst hterm
              exfalso
              apply hpre st _ hterm
              rw [← hst]
              show sysStatus id s = _
              exact (hself).symm
          · have hother : isHolding s.rdOut = false := by
              cases hx : isHolding s.rdOut
              · rfl
              · exact absurd ⟨hx, by rw [show s.rdErr = RdState.holding c from hrd]; rfl⟩ hcl2
            simp only [sysStep, hrd, setRd]
            refine ⟨?_, ?_, ?_, ?_⟩
            · show ((updateHandle s.reg id _).map (fun e => e.1)).Nodup
              rw [updateHandle_keys]
              exact hnd
            · intro _
              exact ⟨hother, rfl⟩
            · intro hcontra
              exact absurd hcontra.2 (by simp [isHolding])
            · intro st hst hterm
              exfalso
              apply hpre st _ hterm
              rw [← hst]
              show sysStatus id s = _
              exact (hself).symm
  | pollTick r =>
      by_cases hmon : s.monActive
      case neg =>
        simpa [sysStep, hmon] using ⟨hnd, hcl1, hcl2, hcl3⟩
      case pos =>
      rcases hl : regLookup s.reg id with _ | h
      · simp only [sysStep, if_pos hmon, monitor_poll, hl]
        exact ⟨hnd, hcl1, hcl2, hcl3⟩
      · rcases hc : h.child with _ | c
        · simp only [sysStep, if_pos hmon, monitor_poll, hl, poll_step, hc]
          have heq : updateHandle s.reg id (fun _ => h) = s.reg :=
            updateHandle_const_of_lookup s.reg id h hl
          rw [heq]
          exact ⟨hnd, hcl1, hcl2, hcl3⟩
        · have hhold := hcl1 (by rw [regChild, hl]; simp [hc])
          cases r with
          | stillRunning =>
              by_cases hstg : h.info.status = ProcessStatus.Starting
              · simp only [sysStep, if_pos hmon, monitor_poll, hl, poll_step, hc,
                  if_pos hstg]
                refine ⟨?_, ?_, hcl2, ?_⟩
                · show ((updateHandle s.reg id _).map (fun e => e.1)).Nodup
                  rw [updateHandle_keys]
                  exact hnd
                · intro _
                  exact hhold
                · intro st hst hterm
                  exfalso
                  simp only [sysStatus] at hst
                  rw [regLookup_update_self, hl] at hst
                  simp at hst
                  subst hst
                  simp [isTerminal] at hterm
              · simp only [sysStep, if_pos hmon, monitor_poll, hl, poll_step, hc,
                  if_neg hstg]
                have heq : updateHandle s.reg id (fun _ => h) = s.reg :=
                  updateHandle_const_of_lookup s.reg id h hl
                rw [heq]
                exact ⟨hnd, hcl1, hcl2, hcl3⟩
          | exited success =>
              simp only [sysStep, if_pos hmon, monitor_poll, hl, poll_step, hc]
              refine ⟨?_, ?_, hcl2, ?_⟩
              · show ((updateHandle s.reg id _).map (fun e => e.1)).Nodup
                rw [updateHandle_keys]
                exact hnd
              · intro hs
                exfalso
                rw [regChild_update_self, hl] at hs
                simp at hs
              · intro st hst hterm
                refine ⟨?_, hhold.1, hhold.2⟩
                rw [regChild_update_self, hl]
                rfl
          | pollErr =>
              simp only [sysStep, if_pos hmon, monitor_poll, hl, poll_step, hc]
              refine ⟨?_, ?_, hcl2, ?_⟩
              · show ((updateHandle s.reg id _).map (fun e => e.1)).Nodup
                rw [updateHandle_keys]
                exact hnd
              · intro hs
                exfalso
                rw [regChild_update_self, hl] at hs
                simp at hs
              · intro st hst hterm
                refine ⟨?_, hhold.1, hhold.2⟩
                rw [regChild_update_self, hl]
                rfl
  | stopCall =>
      rcases hl : regLookup s.reg id with _ | h
      · simp only [sysStep, stop_process, hl]
        exact ⟨hnd, hcl1, hcl2, hcl3⟩
      · rcases hc : h.child with _ | c
        · simp only [sysStep, stop_process, hl, hc]
          exact ⟨hnd, hcl1, hcl2, hcl3⟩
        · rcases hk : c.killErr with _ | err2
          · have hhold := hcl1 (by rw [regChild, hl]; simp [hc])
            simp only [sysStep, stop_process, hl, hc, hk]
            refine ⟨?_, ?_, hcl2, ?_⟩
            · show ((updateHandle s.reg id _).map (fun e => e.1)).Nodup
              rw [updateHandle_keys]
              exact hnd
            · intro hs
              exfalso
              rw [regChild_update_self, hl] at hs
              simp at hs
            · intro st hst hterm
              refine ⟨?_, hhold.1, hhold.2⟩
              rw [regChild_update_self, hl]
              rfl
          · simp only [sysStep, stop_process, hl, hc, hk]
            exact ⟨hnd, hcl1, hcl2, hcl3⟩
  | cleanupCall =>
      simp only [sysStep]
      have hnd' : ((cleanup_finished_processes s.reg).map (fun e => e.1)).Nodup := by
        unfold cleanup_finished_processes
        exact filter_keys_nodup _ s.reg hnd
      have hch : regChild (cleanup_finished_processes s.reg) id =
          (regLookup (cleanup_finished_processes s.reg) id).bind (fun h => h.child) := rfl
      rcases cleanup_lookup_cases s.reg hnd id with hca | hca
      · refine ⟨hnd', ?_, hcl2, ?_⟩
        · intro hs
          apply hcl1
          have hs' : (regChild (cleanup_finished_processes s.reg) id).isSome = true := hs
          rw [hch, hca] at hs'
          exact hs'
        · intro st hst hterm
          simp only [sysStatus] at hst
          rw [hca] at hst
          have h3 := hcl3 st hst hterm
          refine ⟨?_, h3.2.1, h3.2.2⟩
          show regChild (cleanup_finished_processes s.reg) id = none
          rw [hch, hca]
          exact h3.1
      · refine ⟨hnd', ?_, hcl2, ?_⟩
        · intro hs
          exfalso
          have hs' : (regChild (cleanup_finished_processes s.reg) id).isSome = true := hs
          rw [hch, hca] at hs'
          simp at hs'
        · intro st hst hterm
          exfalso
          simp only [sysStatus] at hst
          rw [hca] at hst
          cases hst

/-- The invariant holds along every trace. -/
theorem sysInv_run (id : String) (s : SysState) (hInv : SysInv id s) :
    ∀ evs : List SysEvent, SysInv id (sysRun id s evs) := by
  intro evs
  induction evs generalizing s with
  | nil => exact hInv
  | cons e t ih => exact ih (sysStep id s e) (sysInv_step id s e hInv)

/-- C3: along every interleaving of reader, monitor and façade steps
from a reachable state, a record's status only moves forward along
Starting → Running → terminal: once Stopped, Failed or Killed, no later
step changes it (in particular the monitor never overwrites Killed),
and no record re-enters Starting. -/
theorem status_forward_only (id : String) (s0 : SysState) (hInv : SysInv id s0)
    (evs : List SysEvent) (e : SysEvent) :
    (∀ st, sysStatus id (sysRun id s0 evs) = some st → isTerminal st = true →
        sysStatus id (sysRun id s0 (evs ++ [e])) = some st ∨
        sysStatus id (sysRun id s0 (evs ++ [e])) = none) ∧
    (∀ st st', sysStatus id (sysRun id s0 evs) = some st →
        sysStatus id (sysRun id s0 (evs ++ [e])) = some st' →
        statusRank st ≤ statusRank st') ∧
    (∀ st, sysStatus id (sysRun id s0 evs) = some st → st ≠ ProcessStatus.Starting →
        sysStatus id (sysRun id s0 (evs ++ [e])) ≠ some ProcessStatus.Starting) := by
  have hInv1 := sysInv_run id s0 hInv evs
  have hrun : sysRun id s0 (evs ++ [e]) = sysStep id (sysRun id s0 evs) e := by
    simp [sysRun]
  rcases sysStep_status_cases id (sysRun id s0 evs) e hInv1 with hcase | hcase | hcase
  · refine ⟨?_, ?_, ?_⟩
    · intro st h _
      left
      rw [hrun, hcase, h]
    · intro st st' h1 h2
      rw [hrun, hcase, h1] at h2
      cases h2
      exact Nat.le_refl _
    · intro st h hne hcontra
      rw [hrun, hcase, h] at hcontra
      cases hcontra
      exact hne rfl
  · refine ⟨?_, ?_, ?_⟩
    · intro st _ _
      right
      rw [hrun, hcase]
    · intro st st' _ h2
      rw [hrun, hcase] at h2
      cases h2
    · intro st _ _ hcontra
      rw [hrun, hcase] at hcontra
      cases hcontra
  · obtain ⟨st0, st0', hsome, hterm0, hsome', hlt, hne'⟩ := hcase
    refine ⟨?_, ?_, ?_⟩
    · intro st h hterm
      rw [h] at hsome
      cases hsome
      rw [hterm] at hterm0
      cases hterm0
    · intro st st' h1 h2
      rw [h1] at hsome
      cases hsome
      rw [hrun, hsome'] at h2
      cases h2
      exact Nat.le_of_lt hlt
    · intro st h hne hcontra
      rw [hrun, hsome'] at hcontra
      cases hcontra
      exact hne' rfl

/-- Witness for `status_forward_only`: a Killed record survives a
monitor poll unchanged. -/
theorem status_forward_only_witness :
    sysStatus "p" (sysRun "p" demoTermState
        ([] ++ [SysEvent.pollTick PollResult.stillRunning])) =
      some ProcessStatus.Killed ∨
    sysStatus "p" (sysRun "p" demoTermState
        ([] ++ [SysEvent.pollTick PollResult.stillRunning])) = none :=
  (status_forward_only "p" demoTermState (by decide) []
      (SysEvent.pollTick PollResult.stillRunning)).1
    ProcessStatus.Killed (by decide) (by decide)

end Latte
